import Mathlib

/-!
Verification of the room coordination and broadcast relay of the
City-School repository against its natural-language specification.

The embedding follows the Socket.IO relay implemented in
`server/socket-server.ts` (the variant embedded in
`src/frontend/components/Loading.tsx`, lines 1994-2414), whose room model is
the richer of the two relay variants in the repository (the other being
`src/server/server.js`, which shares the same join/lock/chat/disconnect
logic but tracks members as a plain set).

Modelling conventions:
- A JavaScript `Map` is an insertion-ordered association list
  `List (String × Member)`; `Map.set` replaces the value in place when the
  key is present (keeping its position) and appends otherwise; `Map.delete`
  removes the entry; `Map.values()` lists values in insertion order.
- A JavaScript `Set` of strings is a `List String` queried by membership.
- `Date.now()` is an explicit `Nat` parameter `now` (milliseconds).
- `Math.random().toString(36).substr(2, 9)` is an explicit `String`
  parameter `rand`: the random source is an oracle input, so any guarantee
  must hold for every value it may produce.
- JavaScript string truthiness: `""`, `null` and `undefined` are falsy.
  `room.hostId` is `Option String` (`null` ↦ `none`).
- Each Socket.IO emission is recorded with its audience: `socket.emit`
  targets the sender only, `io.to(name).emit` targets every socket in the
  Socket.IO room `name`, `socket.to(name).emit` targets every socket in
  `name` except the sender.  A socket is in the Socket.IO rooms it joined
  via `socket.join` plus the room named by its own socket id.
-/

namespace CitySchool

/-- A room member, as stored by `room.members.set(userId, {...})`
(Loading.tsx 2087-2093).  The code calls the host flag `isModerator`. -/
structure Member where
  id : String
  name : String
  isModerator : Bool
  canDraw : Bool
  handRaised : Bool
deriving Repr, DecidableEq

/-- A whiteboard drawing operation.  The client-supplied payload is uninterpreted
by the server except for the `id` field, which the server overwrites at
ingestion (Loading.tsx 2200); `content` stands for all other fields. -/
structure Drawing where
  id : String
  content : String
deriving Repr, DecidableEq

/-- A chat message.  The server overwrites `id` and sets `isMe := false`
before broadcasting (Loading.tsx 2153-2159). -/
structure ChatMsg where
  id : String
  content : String
  isMe : Bool
deriving Repr, DecidableEq

/-- A reaction payload; the server overwrites `id` (Loading.tsx 2356). -/
structure Reaction where
  id : String
  content : String
deriving Repr, DecidableEq

/-- The per-connection session stored in `socket.data`: set on join
(Loading.tsx 2084) and extended with `lastChatTime` by the chat throttle
(Loading.tsx 2161). -/
structure Session where
  userId : String
  roomId : String
  userName : String
  lastChatTime : Option Nat
deriving Repr, DecidableEq

/-- Room state, as created by `getOrCreateRoom` (Loading.tsx 2038-2049). -/
structure Room where
  locked : Bool
  password : Option String
  hostId : Option String
  members : List (String × Member)
  whiteboardDrawings : List Drawing
  whiteboardBackground : Option String
  allowedUsers : List String
  lastActivity : Nat
  handRaised : List String
deriving Repr, DecidableEq

/-- Audience of one emission. -/
inductive Target where
  | toSender
  | toRoomAll (name : String)
  | toRoomExceptSender (name : String)
deriving Repr, DecidableEq

/-- Structured payloads of the outbound events the claims mention. -/
inductive Payload where
  | nothing
  | errorMsg (msg : String)
  | roomState (locked : Bool) (hostId : Option String) (members : List Member)
      (canDraw : Option Bool)
  | membersList (members : List Member)
  | whiteboardState (drawings : List Drawing) (background : Option String)
  | chatOut (m : ChatMsg)
  | drawingOut (d : Drawing)
  | reactionOut (r : Reaction)
  | hostChanged (newHostId : String)
  | handRaisedP (userId userName : String)
  | handLoweredP (userId : String)
  | userPermission (userId : String) (canDraw : Bool)
deriving Repr, DecidableEq

/-- One outbound emission: audience, event name, payload. -/
structure Emission where
  target : Target
  event : String
  payload : Payload
deriving Repr, DecidableEq

/-- A connected socket for delivery purposes: its socket id and the
Socket.IO rooms it joined via `socket.join` (the server only ever calls
`socket.join(roomId)`, Loading.tsx 2083). -/
structure SocketInfo where
  sid : String
  joined : List String
deriving Repr, DecidableEq

/-- The Socket.IO rooms a socket belongs to: every socket is automatically
a member of the room named by its own id, plus the rooms it joined. -/
def SocketInfo.rooms (s : SocketInfo) : List String :=
  s.sid :: s.joined

/-- Whether socket `recv` receives emission `e` sent from socket `sender`:
`socket.emit` reaches only the sender; `io.to(n)` reaches every socket in
room `n`; `socket.to(n)` reaches every socket in room `n` except the
sender. -/
def receivesEm (sender recv : SocketInfo) (e : Emission) : Bool :=
  match e.target with
  | .toSender => recv.sid == sender.sid
  | .toRoomAll n => recv.rooms.contains n
  | .toRoomExceptSender n => recv.rooms.contains n && recv.sid != sender.sid

/-! ### JavaScript `Map` / `Set` operations on ordered association lists -/

/-- JavaScript `Map.get`. -/
def mapGet (k : String) : List (String × Member) → Option Member
  | [] => none
  | (k', v) :: rest => if k' == k then some v else mapGet k rest

/-- JavaScript `Map.set`: replace in place when the key is present (keeping its
position), append otherwise. -/
def mapSet (k : String) (v : Member) : List (String × Member) → List (String × Member)
  | [] => [(k, v)]
  | (k', v') :: rest => if k' == k then (k, v) :: rest else (k', v') :: mapSet k v rest

/-- JavaScript `Map.delete`.  Keys are unique in every reachable map, so removing all
occurrences coincides with removing the entry. -/
def mapDelete (k : String) (l : List (String × Member)) : List (String × Member) :=
  l.filter (fun p => p.1 != k)

/-- Mutation of the member object returned by `Map.get`
(e.g. `member.handRaised = true`): update the entry at key `k` in place. -/
def mapUpdate (k : String) (f : Member → Member) :
    List (String × Member) → List (String × Member)
  | [] => []
  | (k', v) :: rest =>
      if k' == k then (k', f v) :: rest else (k', v) :: mapUpdate k f rest

/-- JavaScript `Map.values()` in insertion order. -/
def mapValues (l : List (String × Member)) : List Member :=
  l.map Prod.snd

/-- The keys of the map, in order. -/
def keysOf (l : List (String × Member)) : List String :=
  l.map Prod.fst

/-- JavaScript `Set.add`. -/
def setAdd (u : String) (l : List String) : List String :=
  if l.contains u then l else l ++ [u]

/-- JavaScript `Set.delete`. -/
def setDelete (u : String) (l : List String) : List String :=
  l.filter (fun x => x != u)

/-! ### Truthiness and shared helpers -/

/-- JavaScript truthiness of a string: `""` is falsy. -/
def truthyS (s : String) : Bool := s != ""

/-- JavaScript truthiness of a nullable string: `null` and `""` are falsy. -/
def truthyOpt : Option String → Bool
  | none => false
  | some s => s != ""

/-- The guard `if (!socket.data?.userId || !socket.data?.roomId) return`
shared by every handler except join. -/
def sessionOk (s : Session) : Bool :=
  truthyS s.userId && truthyS s.roomId

/-- The server-assigned event id string of
`` `${userId}-${Date.now()}-${rand}` `` (Loading.tsx 2153, 2200, 2356). -/
def mkEventId (userId : String) (now : Nat) (rand : String) : String :=
  userId ++ "-" ++ toString now ++ "-" ++ rand

/-- A fresh room (Loading.tsx 2039-2049). -/
def freshRoom (now : Nat) : Room where
  locked := false
  password := none
  hostId := none
  members := []
  whiteboardDrawings := []
  whiteboardBackground := none
  allowedUsers := []
  lastActivity := now
  handRaised := []

/-- The lookup `getOrCreateRoom` (Loading.tsx 2037-2054): create the room if absent
and, in every case, stamp `lastActivity = Date.now()`. -/
def getOrCreateRoom (reg : Option Room) (now : Nat) : Room :=
  { reg.getD (freshRoom now) with lastActivity := now }

/-! ### Event handlers (Loading.tsx 2056-2408)

Each handler maps the pre-state of the registry entry for the payload's
room id (`none` when the room does not exist) to the post-state and the
list of emissions, in order.  The connection's `socket.data` is passed in
as `s : Session`. -/

/-- The password gate of `join-room` (Loading.tsx 2069-2074): the join is
turned away exactly when the room is locked, has a truthy host different
from the joiner, and the stored password differs from the supplied one. -/
def joinBlocked (room : Room) (u : String) (pw : Option String) : Bool :=
  room.locked && truthyOpt room.hostId && (room.hostId != some u)
    && (room.password != pw)

/-- The admitting tail of `join-room` (Loading.tsx 2076-2112): claim the
host slot if none is set, upsert the member, send the room snapshot and
whiteboard replay to the joiner, and the member list to the rest. -/
def joinAccept (rid u nm : String) (room : Room) : Option Room × List Emission :=
  let room₁ :=
    if truthyOpt room.hostId then room
    else { room with hostId := some u, allowedUsers := setAdd u room.allowedUsers }
  let mem : Member :=
    { id := u, name := nm,
      isModerator := room₁.hostId == some u,
      canDraw := room₁.allowedUsers.contains u,
      handRaised := room₁.handRaised.contains u }
  let room₂ := { room₁ with members := mapSet u mem room₁.members }
  (some room₂,
    [⟨.toSender, "room-state",
      .roomState room₂.locked room₂.hostId (mapValues room₂.members)
        (some (room₂.allowedUsers.contains u))⟩,
     ⟨.toSender, "whiteboard:state",
      .whiteboardState room₂.whiteboardDrawings room₂.whiteboardBackground⟩,
     ⟨.toRoomExceptSender rid, "room-members", .membersList (mapValues room₂.members)⟩])

/-- The handler `socket.on('join-room')` (Loading.tsx 2059-2118). -/
def joinRoom (rid u nm : String) (pw : Option String) (reg : Option Room)
    (now : Nat) : Option Room × List Emission :=
  if !(truthyS rid && truthyS u) then
    (reg, [⟨.toSender, "error", .errorMsg "Invalid room or user ID"⟩])
  else if joinBlocked (getOrCreateRoom reg now) u pw then
    (some (getOrCreateRoom reg now), [⟨.toSender, "error:password-required", .nothing⟩])
  else
    joinAccept rid u nm (getOrCreateRoom reg now)

/-- The handler `socket.on('room:lock')` (Loading.tsx 2121-2131). -/
def roomLock (s : Session) (rid pw : String) (reg : Option Room) (now : Nat) :
    Option Room × List Emission :=
  if !sessionOk s then (reg, [])
  else if ((getOrCreateRoom reg now).hostId == some s.userId) && truthyS pw then
    (some { getOrCreateRoom reg now with locked := true, password := some pw },
      [⟨.toRoomAll rid, "room:locked", .nothing⟩])
  else (some (getOrCreateRoom reg now), [])

/-- The handler `socket.on('room:unlock')` (Loading.tsx 2133-2143). -/
def roomUnlock (s : Session) (rid : String) (reg : Option Room) (now : Nat) :
    Option Room × List Emission :=
  if !sessionOk s then (reg, [])
  else if (getOrCreateRoom reg now).hostId == some s.userId then
    (some { getOrCreateRoom reg now with locked := false, password := none },
      [⟨.toRoomAll rid, "room:unlocked", .nothing⟩])
  else (some (getOrCreateRoom reg now), [])

/-- The throttle test
`!socket.data.lastChatTime || Date.now() - socket.data.lastChatTime > 1000`
(Loading.tsx 2151).  A stored timestamp `0` is falsy in JavaScript, hence
the `t == 0` disjunct. -/
def chatAllowed (s : Session) (now : Nat) : Bool :=
  match s.lastChatTime with
  | none => true
  | some t => t == 0 || now - t > 1000

/-- The handler `socket.on('chat:send')` (Loading.tsx 2146-2169).  The handler never
touches the room registry; its state is the connection session. -/
def chatSend (s : Session) (rid : String) (msg : ChatMsg) (now : Nat)
    (rand : String) : List Emission × Session :=
  if !sessionOk s then ([], s)
  else if chatAllowed s now then
    let m := { msg with id := mkEventId s.userId now rand, isMe := false }
    ([⟨.toRoomAll rid, "chat:receive", .chatOut m⟩],
     { s with lastChatTime := some now })
  else
    ([⟨.toSender, "error", .errorMsg "Message rate limit exceeded"⟩], s)

/-- The handler `socket.on('whiteboard:drawing')` (Loading.tsx 2193-2205). -/
def whiteboardDrawing (s : Session) (rid : String) (d : Drawing)
    (reg : Option Room) (now : Nat) (rand : String) :
    Option Room × List Emission :=
  if !sessionOk s then (reg, [])
  else if (getOrCreateRoom reg now).allowedUsers.contains s.userId then
    (some { getOrCreateRoom reg now with
        whiteboardDrawings := (getOrCreateRoom reg now).whiteboardDrawings
          ++ [{ d with id := mkEventId s.userId now rand }] },
      [⟨.toRoomExceptSender rid, "whiteboard:drawing",
        .drawingOut { d with id := mkEventId s.userId now rand }⟩])
  else (some (getOrCreateRoom reg now), [])

/-- The handler `socket.on('reaction:send')` (Loading.tsx 2353-2358).  No room lookup
at all; the reaction is relayed with a freshly assigned id. -/
def reactionSend (s : Session) (rid : String) (rc : Reaction) (now : Nat)
    (rand : String) : List Emission :=
  if !sessionOk s then []
  else
    [⟨.toRoomExceptSender rid, "reaction:send",
      .reactionOut { rc with id := mkEventId s.userId now rand }⟩]

/-- The handler `socket.on('host:make-host')` (Loading.tsx 2256-2281): demote the
caller's member entry, point `hostId` at the target (checked nowhere to be
a member), promote the target's entry when present, and always grant the
target draw permission. -/
def makeHost (s : Session) (rid target : String) (reg : Option Room)
    (now : Nat) : Option Room × List Emission :=
  if !sessionOk s then (reg, [])
  else if (getOrCreateRoom reg now).hostId == some s.userId then
    let members₂ := mapUpdate target (fun m => { m with isModerator := true })
      (mapUpdate s.userId (fun m => { m with isModerator := false })
        (getOrCreateRoom reg now).members)
    (some { getOrCreateRoom reg now with
        hostId := some target, members := members₂,
        allowedUsers := setAdd target (getOrCreateRoom reg now).allowedUsers },
      [⟨.toRoomAll rid, "host:changed", .hostChanged target⟩,
       ⟨.toRoomAll rid, "room-members", .membersList (mapValues members₂)⟩])
  else (some (getOrCreateRoom reg now), [])

/-- The handler `socket.on('hand:raise')` (Loading.tsx 2284-2297): unconditionally add
the caller to the raised-hands set and flag their member entry if any. -/
def handRaise (s : Session) (rid : String) (reg : Option Room) (now : Nat) :
    Option Room × List Emission :=
  if !sessionOk s then (reg, [])
  else
    let room' := { getOrCreateRoom reg now with
      handRaised := setAdd s.userId (getOrCreateRoom reg now).handRaised,
      members := mapUpdate s.userId (fun m => { m with handRaised := true })
        (getOrCreateRoom reg now).members }
    (some room',
      [⟨.toRoomAll rid, "hand:raised", .handRaisedP s.userId s.userName⟩,
       ⟨.toRoomAll rid, "room-members", .membersList (mapValues room'.members)⟩])

/-- The handler `socket.on('hand:lower')` (Loading.tsx 2299-2312). -/
def handLower (s : Session) (rid : String) (reg : Option Room) (now : Nat) :
    Option Room × List Emission :=
  if !sessionOk s then (reg, [])
  else
    let room' := { getOrCreateRoom reg now with
      handRaised := setDelete s.userId (getOrCreateRoom reg now).handRaised,
      members := mapUpdate s.userId (fun m => { m with handRaised := false })
        (getOrCreateRoom reg now).members }
    (some room',
      [⟨.toRoomAll rid, "hand:lowered", .handLoweredP s.userId⟩,
       ⟨.toRoomAll rid, "room-members", .membersList (mapValues room'.members)⟩])

/-- The handler `socket.on('hand:lower-all')` (Loading.tsx 2314-2327), host-gated. -/
def handLowerAll (s : Session) (rid : String) (reg : Option Room) (now : Nat) :
    Option Room × List Emission :=
  if !sessionOk s then (reg, [])
  else if (getOrCreateRoom reg now).hostId == some s.userId then
    let room' := { getOrCreateRoom reg now with
      handRaised := [],
      members := (getOrCreateRoom reg now).members.map
        (fun p => (p.1, { p.2 with handRaised := false })) }
    (some room',
      [⟨.toRoomAll rid, "hand:lowered-all", .nothing⟩,
       ⟨.toRoomAll rid, "room-members", .membersList (mapValues room'.members)⟩])
  else (some (getOrCreateRoom reg now), [])

/-- The handler `socket.on('moderator:mute-user')` (Loading.tsx 2330-2339): host-gated;
emits `moderator:force-mute` via `socket.to(userId)`, i.e. to the
Socket.IO room named by the target's user id. -/
def muteUser (s : Session) (_rid target : String) (reg : Option Room)
    (now : Nat) : Option Room × List Emission :=
  if !sessionOk s then (reg, [])
  else if (getOrCreateRoom reg now).hostId == some s.userId then
    (some (getOrCreateRoom reg now),
      [⟨.toRoomExceptSender target, "moderator:force-mute", .nothing⟩])
  else (some (getOrCreateRoom reg now), [])

/-- The handler `socket.on('moderator:remove-user')` (Loading.tsx 2341-2350). -/
def removeUser (s : Session) (_rid target : String) (reg : Option Room)
    (now : Nat) : Option Room × List Emission :=
  if !sessionOk s then (reg, [])
  else if (getOrCreateRoom reg now).hostId == some s.userId then
    (some (getOrCreateRoom reg now),
      [⟨.toRoomExceptSender target, "moderator:force-leave", .nothing⟩])
  else (some (getOrCreateRoom reg now), [])

/-- The removal step of disconnect handling (Loading.tsx 2369-2371):
drop the departing user from members, draw permissions, raised hands. -/
def removeEverywhere (u : String) (room : Room) : Room :=
  { room with
    members := mapDelete u room.members,
    allowedUsers := setDelete u room.allowedUsers,
    handRaised := setDelete u room.handRaised }

/-- The promotion step of host failover (Loading.tsx 2377-2385):
`room.hostId = remainingMembers[0].id`, then
`newHost = room.members.get(room.hostId)`; when that lookup succeeds the
entry is flagged `isModerator = true` and added to `allowedUsers`. -/
def promoteFirst (m : Member) (room₁ : Room) : Room :=
  match mapGet m.id room₁.members with
  | some _ =>
      { room₁ with
        hostId := some m.id,
        members := mapUpdate m.id (fun x => { x with isModerator := true })
          room₁.members,
        allowedUsers := setAdd m.id room₁.allowedUsers }
  | none => { room₁ with hostId := some m.id }

/-- The host-failover step of disconnect handling (Loading.tsx 2374-2398):
if the departed user held the host slot, either promote the first
remaining member (by `Map.values()` order) and broadcast the room-state
snapshot, or clear the slot and signal whiteboard shutdown. -/
def failover (rid u : String) (room₁ : Room) : Room × List Emission :=
  if room₁.hostId == some u then
    match mapValues room₁.members with
    | [] =>
        ({ room₁ with hostId := none },
         [⟨.toRoomAll rid, "whiteboard:disable", .nothing⟩])
    | m :: _ =>
        (promoteFirst m room₁,
         [⟨.toRoomAll rid, "room-state",
           .roomState (promoteFirst m room₁).locked (promoteFirst m room₁).hostId
             (mapValues (promoteFirst m room₁).members) none⟩])
  else (room₁, [])

/-- The handler `socket.on('disconnect')` (Loading.tsx 2360-2408).  No
`getOrCreateRoom` here: the handler checks `rooms.has(roomId)` and leaves
a missing room missing; an emptied room is deleted from the registry. -/
def disconnect (s : Session) (reg : Option Room) : Option Room × List Emission :=
  if !sessionOk s then (reg, [])
  else
    match reg with
    | none => (none, [])
    | some room =>
      if (failover s.roomId s.userId (removeEverywhere s.userId room)).1.members.isEmpty then
        (none, (failover s.roomId s.userId (removeEverywhere s.userId room)).2)
      else
        (some (failover s.roomId s.userId (removeEverywhere s.userId room)).1,
         (failover s.roomId s.userId (removeEverywhere s.userId room)).2
           ++ [⟨.toRoomAll s.roomId, "room-members",
               .membersList (mapValues
                 (failover s.roomId s.userId (removeEverywhere s.userId room)).1.members)⟩])

/-! ### Event sequences on one room

For the sequence claims, events are applied to a single room whose id is
`"R"`; every event carries the data of the session that produced it. -/

/-- The session of a connection that joined room `"R"` as user `u`. -/
def mkSession (u : String) : Session :=
  { userId := u, roomId := "R", userName := u, lastChatTime := none }

/-- The inbound events the sequence claims quantify over. -/
inductive Event where
  | join (u nm : String) (pw : Option String) (now : Nat)
  | disc (u : String)
  | mkHost (caller target : String) (now : Nat)
  | raise (caller : String) (now : Nat)
  | lower (caller : String) (now : Nat)
  | lowerAll (caller : String) (now : Nat)
deriving Repr, DecidableEq

/-- Apply one event to the registry entry of room `"R"`, keeping only the
state (emissions are examined through the individual handlers). -/
def step (reg : Option Room) : Event → Option Room
  | .join u nm pw now => (joinRoom "R" u nm pw reg now).1
  | .disc u => (disconnect (mkSession u) reg).1
  | .mkHost c t now => (makeHost (mkSession c) "R" t reg now).1
  | .raise c now => (handRaise (mkSession c) "R" reg now).1
  | .lower c now => (handLower (mkSession c) "R" reg now).1
  | .lowerAll c now => (handLowerAll (mkSession c) "R" reg now).1

/-- The raised-hands containment check of the spec's invariant:
every id in `handRaised` is a key of `members`. -/
def handsSubset (r : Room) : Bool :=
  r.handRaised.all (fun u => (keysOf r.members).contains u)

/-- The check `handsSubset` lifted to the registry entry. -/
def regHands : Option Room → Bool
  | none => true
  | some r => handsSubset r

/-- Side condition of the amended C8: a hand-raise is issued by a current
member of the room it targets (all other events are unconstrained). -/
def raiseOk (reg : Option Room) : Event → Bool
  | .raise c now => (keysOf (getOrCreateRoom reg now).members).contains c
  | _ => true

/-! ### Concrete states used by the witnesses and counterexamples -/

/-- The member entry of `"h"` after it has been demoted by a make-host
event. -/
def memHdemoted : Member where
  id := "h"
  name := "H"
  isModerator := false
  canDraw := true
  handRaised := false

/-- The member entry of `"h"` while it is host. -/
def memHhost : Member where
  id := "h"
  name := "H"
  isModerator := true
  canDraw := true
  handRaised := false

/-- The room reached from the empty registry by
`join(h)` then `make-host(target g)` issued by `h`, where `g` never
joined: the host slot points at a non-member. -/
def roomC1 : Room where
  locked := false
  password := none
  hostId := some "g"
  members := [("h", memHdemoted)]
  whiteboardDrawings := []
  whiteboardBackground := none
  allowedUsers := ["h", "g"]
  lastActivity := 1
  handRaised := []

/-- The member entry of `"a"` after joining a room that already has a
host. -/
def memA : Member where
  id := "a"
  name := "A"
  isModerator := false
  canDraw := false
  handRaised := false

/-- The member entry of `"b"` after joining a room that already has a
host. -/
def memB : Member where
  id := "b"
  name := "B"
  isModerator := false
  canDraw := false
  handRaised := false

/-- The room reached from the empty registry by joins of `h`, `a`, `b`
in that order (`h` becomes host). -/
def roomHAB : Room where
  locked := false
  password := none
  hostId := some "h"
  members := [("h", memHhost), ("a", memA), ("b", memB)]
  whiteboardDrawings := []
  whiteboardBackground := none
  allowedUsers := ["h"]
  lastActivity := 3
  handRaised := []

/-- The member entry of `"x"` after joining a room that already has a
host. -/
def memX : Member where
  id := "x"
  name := "X"
  isModerator := false
  canDraw := false
  handRaised := false

/-- A room hosted by `"h"` with one further member `"x"`; used for the
failed-precondition counterexample. -/
def roomC3 : Room where
  locked := false
  password := none
  hostId := some "h"
  members := [("h", memHhost), ("x", memX)]
  whiteboardDrawings := []
  whiteboardBackground := none
  allowedUsers := ["h"]
  lastActivity := 0
  handRaised := []

/-- A room hosted by `"h"` with no other member; used for the
lock-round-trip counterexample. -/
def roomC4 : Room where
  locked := false
  password := none
  hostId := some "h"
  members := [("h", memHhost)]
  whiteboardDrawings := []
  whiteboardBackground := none
  allowedUsers := ["h"]
  lastActivity := 0
  handRaised := []

/-- The room reached from `roomC4` after `lock(password="")` (a silent
no-op) and a successful join by `"x"` with password `"y"`. -/
def roomC4joined : Room where
  locked := false
  password := none
  hostId := some "h"
  members := [("h", memHhost), ("x", memX)]
  whiteboardDrawings := []
  whiteboardBackground := none
  allowedUsers := ["h"]
  lastActivity := 2
  handRaised := []

/-- A concrete inbound chat message carrying a client-chosen id. -/
def msgC : ChatMsg where
  id := "client-id"
  content := "hello"
  isMe := true

/-- The member entry of `"u"` as sole host of its room. -/
def memU : Member where
  id := "u"
  name := "U"
  isModerator := true
  canDraw := true
  handRaised := false

/-- A room hosted by `"u"` with draw permission for `"u"`; used for the
event-id counterexample. -/
def roomC7 : Room where
  locked := false
  password := none
  hostId := some "u"
  members := [("u", memU)]
  whiteboardDrawings := []
  whiteboardBackground := none
  allowedUsers := ["u"]
  lastActivity := 0
  handRaised := []

/-- A room whose only member is `"b"`; used for the raised-hands
counterexample. -/
def roomC8 : Room where
  locked := false
  password := none
  hostId := some "b"
  members := [("b", memB)]
  whiteboardDrawings := []
  whiteboardBackground := none
  allowedUsers := ["b"]
  lastActivity := 0
  handRaised := []

/-- A room named `"r"` hosted by `"h"` with member `"a"`; used for the
moderation-delivery analysis. -/
def roomC9 : Room where
  locked := false
  password := none
  hostId := some "h"
  members := [("h", memHhost), ("a", memA)]
  whiteboardDrawings := []
  whiteboardBackground := none
  allowedUsers := ["h"]
  lastActivity := 0
  handRaised := []

/-- The host's socket in the C9 scenario: socket id `"s1"`, joined the
meeting room `"r"`. -/
def sockH : SocketInfo where
  sid := "s1"
  joined := ["r"]

/-- The target participant `"a"`'s socket in the C9 scenario: socket id
`"s2"`, joined the meeting room `"r"` — and nothing named `"a"`. -/
def sockA : SocketInfo where
  sid := "s2"
  joined := ["r"]

/-! ### Basic lemmas about the map and set operations -/

theorem mem_mapSet {k : String} {v : Member} {l : List (String × Member)}
    {p : String × Member} (h : p ∈ mapSet k v l) : p = (k, v) ∨ p ∈ l := by
  induction l with
  | nil =>
    simp only [mapSet, List.mem_singleton] at h
    exact Or.inl h
  | cons q rest ih =>
    obtain ⟨k', v'⟩ := q
    simp only [mapSet] at h
    split at h
    · rcases List.mem_cons.mp h with h1 | h2
      · exact Or.inl h1
      · exact Or.inr (List.mem_cons_of_mem _ h2)
    · rcases List.mem_cons.mp h with h1 | h2
      · exact Or.inr (h1 ▸ List.mem_cons_self _ _)
      · rcases ih h2 with h3 | h4
        · exact Or.inl h3
        · exact Or.inr (List.mem_cons_of_mem _ h4)

theorem keys_mapSet_subset {k : String} {v : Member} {l : List (String × Member)}
    {a : String} (h : a ∈ keysOf (mapSet k v l)) : a = k ∨ a ∈ keysOf l := by
  simp only [keysOf, List.mem_map] at h ⊢
  obtain ⟨p, hp, hpa⟩ := h
  rcases mem_mapSet hp with h1 | h2
  · exact Or.inl (by rw [← hpa, h1])
  · exact Or.inr ⟨p, h2, hpa⟩

theorem nodup_keys_mapSet (k : String) (v : Member) {l : List (String × Member)}
    (h : (keysOf l).Nodup) : (keysOf (mapSet k v l)).Nodup := by
  induction l with
  | nil => simp [mapSet, keysOf]
  | cons q rest ih =>
    obtain ⟨k', v'⟩ := q
    simp only [keysOf, List.map_cons, List.nodup_cons] at h
    obtain ⟨hnot, hrest⟩ := h
    simp only [mapSet]
    split
    · next heq =>
      have hk : k' = k := by simpa using heq
      simp only [keysOf, List.map_cons, List.nodup_cons]
      exact ⟨hk ▸ hnot, hrest⟩
    · next hne =>
      simp only [keysOf, List.map_cons, List.nodup_cons]
      refine ⟨fun hmem => ?_, ih hrest⟩
      rcases keys_mapSet_subset hmem with h1 | h2
      · exact hne (by simp [h1])
      · exact hnot h2

theorem mapSet_of_get_none {k : String} {v : Member} {l : List (String × Member)}
    (h : mapGet k l = none) : mapSet k v l = l ++ [(k, v)] := by
  induction l with
  | nil => rfl
  | cons q rest ih =>
    obtain ⟨k', v'⟩ := q
    simp only [mapGet] at h
    simp only [mapSet]
    split
    · next heq => rw [heq] at h; simp at h
    · next hne =>
      rw [if_neg (by simpa using hne)] at h
      simp [ih h]

theorem mapGet_mapSet_self (k : String) (v : Member) (l : List (String × Member)) :
    mapGet k (mapSet k v l) = some v := by
  induction l with
  | nil => simp [mapSet, mapGet]
  | cons q rest ih =>
    obtain ⟨k', v'⟩ := q
    simp only [mapSet]
    split
    · simp [mapGet]
    · next hne => simpa [mapGet, hne] using ih

theorem keysOf_mapUpdate (k : String) (f : Member → Member)
    (l : List (String × Member)) : keysOf (mapUpdate k f l) = keysOf l := by
  induction l with
  | nil => rfl
  | cons q rest ih =>
    obtain ⟨k', v⟩ := q
    simp only [mapUpdate]
    split
    · simp [keysOf]
    · simp only [keysOf, List.map_cons] at ih ⊢
      rw [ih]

theorem mem_mapUpdate {k : String} {f : Member → Member}
    {l : List (String × Member)} {p : String × Member}
    (hnd : (keysOf l).Nodup) (hp : p ∈ mapUpdate k f l) :
    (p ∈ l ∧ p.1 ≠ k) ∨ ∃ v, (k, v) ∈ l ∧ p = (k, f v) := by
  induction l with
  | nil => simp [mapUpdate] at hp
  | cons q rest ih =>
    obtain ⟨k', v'⟩ := q
    simp only [keysOf, List.map_cons, List.nodup_cons] at hnd
    obtain ⟨hnot, hrest⟩ := hnd
    simp only [mapUpdate] at hp
    split at hp
    · next heq =>
      have hk : k' = k := by simpa using heq
      rcases List.mem_cons.mp hp with h1 | h2
      · exact Or.inr ⟨v', by simp [hk ▸ List.mem_cons_self (k', v') rest, hk, h1],
          by simp [h1, hk]⟩
      · refine Or.inl ⟨List.mem_cons_of_mem _ h2, fun hpk => ?_⟩
        have hmem : p.1 ∈ List.map Prod.fst rest := List.mem_map.mpr ⟨p, h2, rfl⟩
        rw [hpk, ← hk] at hmem
        exact hnot hmem
    · next hne =>
      rcases List.mem_cons.mp hp with h1 | h2
      · refine Or.inl ⟨h1 ▸ List.mem_cons_self _ _, ?_⟩
        rw [h1]
        intro hk
        exact hne (beq_iff_eq.mpr hk)
      · rcases ih hrest h2 with ⟨hm, hk⟩ | ⟨v₀, hm, hpe⟩
        · exact Or.inl ⟨List.mem_cons_of_mem _ hm, hk⟩
        · exact Or.inr ⟨v₀, List.mem_cons_of_mem _ hm, hpe⟩

theorem mapGet_mapUpdate_self (k : String) (f : Member → Member)
    (l : List (String × Member)) :
    mapGet k (mapUpdate k f l) = (mapGet k l).map f := by
  induction l with
  | nil => simp [mapUpdate, mapGet]
  | cons q rest ih =>
    obtain ⟨k', v⟩ := q
    simp only [mapUpdate]
    split
    · next heq => simp [mapGet, heq]
    · next hne => simpa [mapGet, hne] using ih

theorem mem_mapDelete {k : String} {l : List (String × Member)}
    {p : String × Member} : p ∈ mapDelete k l ↔ p ∈ l ∧ p.1 ≠ k := by
  simp [mapDelete, List.mem_filter, bne_iff_ne]

theorem keys_mapDelete {k : String} {l : List (String × Member)} {a : String} :
    a ∈ keysOf (mapDelete k l) ↔ a ∈ keysOf l ∧ a ≠ k := by
  simp only [keysOf, List.mem_map]
  constructor
  · rintro ⟨p, hp, rfl⟩
    obtain ⟨hl, hk⟩ := mem_mapDelete.mp hp
    exact ⟨⟨p, hl, rfl⟩, hk⟩
  · rintro ⟨⟨p, hl, rfl⟩, hk⟩
    exact ⟨p, mem_mapDelete.mpr ⟨hl, hk⟩, rfl⟩

theorem nodup_keys_mapDelete (k : String) {l : List (String × Member)}
    (h : (keysOf l).Nodup) : (keysOf (mapDelete k l)).Nodup :=
  h.sublist ((List.filter_sublist l).map Prod.fst)

theorem contains_setAdd_self (u : String) (l : List String) :
    (setAdd u l).contains u = true := by
  simp only [setAdd]
  split
  · next h => exact h
  · simp

theorem mem_setAdd {u a : String} {l : List String} (h : a ∈ setAdd u l) :
    a = u ∨ a ∈ l := by
  simp only [setAdd] at h
  split at h
  · exact Or.inr h
  · rcases List.mem_append.mp h with h1 | h2
    · exact Or.inr h1
    · exact Or.inl (by simpa using h2)

theorem mem_setDelete {u a : String} {l : List String} :
    a ∈ setDelete u l ↔ a ∈ l ∧ a ≠ u := by
  simp [setDelete, List.mem_filter, bne_iff_ne]

theorem mapValues_eq_nil {l : List (String × Member)} :
    mapValues l = [] ↔ l = [] := by
  simp [mapValues]

theorem keysOf_mapSnd (g : Member → Member) (l : List (String × Member)) :
    keysOf (l.map (fun p => (p.1, g p.2))) = keysOf l := by
  induction l with
  | nil => rfl
  | cons q rest ih => simp only [keysOf, List.map_cons] at ih ⊢; rw [ih]

theorem truthyOpt_false {o : Option String} (h : truthyOpt o = false) :
    o = none ∨ o = some "" := by
  cases o with
  | none => exact Or.inl rfl
  | some s =>
    simp only [truthyOpt, bne_eq_false_iff_eq] at h
    exact Or.inr (by rw [h])

theorem truthyOpt_true {o : Option String} (h : truthyOpt o = true) : o ≠ none := by
  cases o with
  | none => simp [truthyOpt] at h
  | some s => exact fun hc => Option.noConfusion hc

/-! ### The single-host room invariant

The state invariant maintained by every handler: member keys are unique and
non-empty, a non-empty room has a non-`null` host slot, and a member's
`isModerator` flag can be set only when the host slot holds that member's
key.  Together with key uniqueness this bounds the number of flagged
members by one. -/

def strongInv (r : Room) : Prop :=
  (keysOf r.members).Nodup ∧
  (∀ a ∈ keysOf r.members, a ≠ "") ∧
  (r.members ≠ [] → r.hostId ≠ none) ∧
  (∀ p ∈ r.members, p.2.isModerator = true → r.hostId = some p.1)

def regInv : Option Room → Prop
  | none => True
  | some r => strongInv r

theorem strongInv_fresh (now : Nat) : strongInv (freshRoom now) := by
  refine ⟨?_, ?_, ?_, ?_⟩ <;> simp [freshRoom, keysOf]

theorem strongInv_getOrCreateRoom {reg : Option Room} (h : regInv reg) (now : Nat) :
    strongInv (getOrCreateRoom reg now) := by
  cases reg with
  | none => exact strongInv_fresh now
  | some r => exact h

theorem atMostOne_of_strongInv {r : Room} (h : strongInv r) :
    ∀ p ∈ r.members, ∀ q ∈ r.members,
      p.2.isModerator = true → q.2.isModerator = true → p = q := by
  intro p hp q hq hpf hqf
  obtain ⟨hnd, -, -, h4⟩ := h
  have h1 := h4 p hp hpf
  have h2 := h4 q hq hqf
  have hk : p.1 = q.1 := by
    rw [h1] at h2
    exact Option.some_injective _ h2
  exact List.inj_on_of_nodup_map hnd hp hq hk

theorem strongInv_joinAccept {u : String} (rid nm : String) {room : Room}
    (hu : u ≠ "") (h : strongInv room) : regInv (joinAccept rid u nm room).1 := by
  obtain ⟨h1, h2, h3, h4⟩ := h
  cases htr : truthyOpt room.hostId with
  | true =>
    simp only [joinAccept, htr, if_true, regInv]
    refine ⟨nodup_keys_mapSet _ _ h1, ?_, ?_, ?_⟩
    · intro a ha
      rcases keys_mapSet_subset ha with rfl | ha'
      · exact hu
      · exact h2 a ha'
    · intro _
      exact fun hc => truthyOpt_true htr hc
    · intro p hp hpf
      rcases mem_mapSet hp with rfl | hp'
      · simp only at hpf ⊢
        exact (beq_iff_eq.mp hpf).symm ▸ rfl
      · exact h4 p hp' hpf
  | false =>
    simp only [joinAccept, htr, if_false, regInv]
    refine ⟨nodup_keys_mapSet _ _ h1, ?_, ?_, ?_⟩
    · intro a ha
      rcases keys_mapSet_subset ha with rfl | ha'
      · exact hu
      · exact h2 a ha'
    · intro _
      exact fun hc => Option.noConfusion hc
    · intro p hp hpf
      rcases mem_mapSet hp with rfl | hp'
      · simp only at hpf ⊢
        exact (beq_iff_eq.mp hpf).symm ▸ rfl
      · have := h4 p hp' hpf
        rcases truthyOpt_false htr with hn | hs
        · rw [hn] at this; exact Option.noConfusion this
        · rw [hs] at this
          have : p.1 = "" := (Option.some_injective _ this).symm
          exact absurd this (h2 p.1 (List.mem_map.mpr ⟨p, hp', rfl⟩))

theorem regInv_joinRoom (rid u nm : String) (pw : Option String)
    {reg : Option Room} (now : Nat) (h : regInv reg) :
    regInv (joinRoom rid u nm pw reg now).1 := by
  cases hg : (!(truthyS rid && truthyS u)) with
  | true => simpa only [joinRoom, hg, if_true] using h
  | false =>
    have hu : u ≠ "" := by
      simp only [Bool.not_eq_false', Bool.and_eq_true, truthyS, bne_iff_ne] at hg
      exact hg.2
    cases hb : joinBlocked (getOrCreateRoom reg now) u pw with
    | true =>
      simp only [joinRoom, hg, if_false, hb, if_true]
      exact strongInv_getOrCreateRoom h now
    | false =>
      simp only [joinRoom, hg, if_false, hb]
      exact strongInv_joinAccept rid nm hu (strongInv_getOrCreateRoom h now)

theorem regInv_makeHost (s : Session) (rid target : String) {reg : Option Room}
    (now : Nat) (h : regInv reg) : regInv (makeHost s rid target reg now).1 := by
  cases hok : sessionOk s with
  | false => simpa only [makeHost, hok, Bool.not_false, if_true] using h
  | true =>
    have hroom := strongInv_getOrCreateRoom h now
    set room := getOrCreateRoom reg now with hroomdef
    obtain ⟨h1, h2, h3, h4⟩ := hroom
    cases hh : (room.hostId == some s.userId) with
    | false => simpa only [makeHost, hok, Bool.not_true, if_false, ← hroomdef, hh] using
        ⟨h1, h2, h3, h4⟩
    | true =>
      simp only [makeHost, hok, Bool.not_true, if_false, ← hroomdef, hh, if_true, regInv]
      have hkeys₁ : keysOf (mapUpdate s.userId (fun m => { m with isModerator := false })
          room.members) = keysOf room.members := keysOf_mapUpdate _ _ _
      have hnd₁ : (keysOf (mapUpdate s.userId (fun m => { m with isModerator := false })
          room.members)).Nodup := hkeys₁ ▸ h1
      refine ⟨?_, ?_, ?_, ?_⟩
      · rw [keysOf_mapUpdate, hkeys₁]; exact h1
      · intro a ha
        rw [keysOf_mapUpdate, hkeys₁] at ha
        exact h2 a ha
      · intro _
        exact fun hc => Option.noConfusion hc
      · intro p hp hpf
        rcases mem_mapUpdate hnd₁ hp with ⟨hp₁, hpt⟩ | ⟨v, hv, rfl⟩
        · rcases mem_mapUpdate h1 hp₁ with ⟨hp₂, hpc⟩ | ⟨w, hw, rfl⟩
          · have := h4 p hp₂ hpf
            rw [beq_iff_eq.mp hh] at this
            exact absurd (Option.some_injective _ this).symm hpc
          · simp at hpf
        · rfl

theorem regInv_handRaise (s : Session) (rid : String) {reg : Option Room}
    (now : Nat) (h : regInv reg) : regInv (handRaise s rid reg now).1 := by
  cases hok : sessionOk s with
  | false => simpa only [handRaise, hok, Bool.not_false, if_true] using h
  | true =>
    have hroom := strongInv_getOrCreateRoom h now
    obtain ⟨h1, h2, h3, h4⟩ := hroom
    simp only [handRaise, hok, Bool.not_true, if_false, regInv]
    refine ⟨?_, ?_, ?_, ?_⟩
    · rw [keysOf_mapUpdate]; exact h1
    · intro a ha
      rw [keysOf_mapUpdate] at ha
      exact h2 a ha
    · intro hne
      refine fun hc => h3 (fun hnil => hne ?_) hc
      rw [hnil]; rfl
    · intro p hp hpf
      rcases mem_mapUpdate h1 hp with ⟨hp₁, -⟩ | ⟨v, hv, rfl⟩
      · exact h4 p hp₁ hpf
      · exact h4 (s.userId, v) hv hpf

theorem regInv_handLower (s : Session) (rid : String) {reg : Option Room}
    (now : Nat) (h : regInv reg) : regInv (handLower s rid reg now).1 := by
  cases hok : sessionOk s with
  | false => simpa only [handLower, hok, Bool.not_false, if_true] using h
  | true =>
    have hroom := strongInv_getOrCreateRoom h now
    obtain ⟨h1, h2, h3, h4⟩ := hroom
    simp only [handLower, hok, Bool.not_true, if_false, regInv]
    refine ⟨?_, ?_, ?_, ?_⟩
    · rw [keysOf_mapUpdate]; exact h1
    · intro a ha
      rw [keysOf_mapUpdate] at ha
      exact h2 a ha
    · intro hne
      refine fun hc => h3 (fun hnil => hne ?_) hc
      rw [hnil]; rfl
    · intro p hp hpf
      rcases mem_mapUpdate h1 hp with ⟨hp₁, -⟩ | ⟨v, hv, rfl⟩
      · exact h4 p hp₁ hpf
      · exact h4 (s.userId, v) hv hpf

theorem strongInv_lowerAllRoom {room : Room} (h : strongInv room) :
    strongInv { room with
      handRaised := ([] : List String),
      members := room.members.map (fun p => (p.1, { p.2 with handRaised := false })) } := by
  obtain ⟨h1, h2, h3, h4⟩ := h
  have hk : keysOf (room.members.map (fun p => (p.1, { p.2 with handRaised := false })))
      = keysOf room.members := by
    induction room.members with
    | nil => rfl
    | cons q rest ih => simp only [keysOf, List.map_cons] at ih ⊢; rw [ih]
  refine ⟨?_, ?_, ?_, ?_⟩
  · show (keysOf (room.members.map (fun p => (p.1, { p.2 with handRaised := false })))).Nodup
    rw [hk]; exact h1
  · show ∀ a ∈ keysOf (room.members.map (fun p => (p.1, { p.2 with handRaised := false }))),
      a ≠ ""
    rw [hk]; exact h2
  · intro hne
    refine h3 (fun hnil => hne ?_)
    show room.members.map (fun p => (p.1, { p.2 with handRaised := false })) = []
    rw [hnil]; rfl
  · intro p hp hpf
    obtain ⟨q, hq, rfl⟩ := List.mem_map.mp hp
    exact h4 q hq hpf

theorem regInv_handLowerAll (s : Session) (rid : String) {reg : Option Room}
    (now : Nat) (h : regInv reg) : regInv (handLowerAll s rid reg now).1 := by
  cases hok : sessionOk s with
  | false => simpa only [handLowerAll, hok, Bool.not_false, if_true] using h
  | true =>
    have hroom := strongInv_getOrCreateRoom h now
    set room := getOrCreateRoom reg now with hroomdef
    obtain ⟨h1, h2, h3, h4⟩ := hroom
    cases hh : (room.hostId == some s.userId) with
    | false => simpa only [handLowerAll, hok, Bool.not_true, if_false, ← hroomdef, hh] using
        ⟨h1, h2, h3, h4⟩
    | true =>
      simp only [handLowerAll, hok, Bool.not_true, if_false, ← hroomdef, hh, if_true, regInv]
      exact strongInv_lowerAllRoom ⟨h1, h2, h3, h4⟩

theorem strongInv_promoteFirst {u : String} (m : Member) {room₁ : Room}
    (h : strongInv room₁) (hhost : room₁.hostId = some u)
    (hnotu : ∀ p ∈ room₁.members, p.1 ≠ u) : strongInv (promoteFirst m room₁) := by
  obtain ⟨h1, h2, h3, h4⟩ := h
  unfold promoteFirst
  split
  · refine ⟨?_, ?_, ?_, ?_⟩
    · show (keysOf (mapUpdate m.id (fun x => { x with isModerator := true })
        room₁.members)).Nodup
      rw [keysOf_mapUpdate]; exact h1
    · show ∀ a ∈ keysOf (mapUpdate m.id (fun x => { x with isModerator := true })
        room₁.members), a ≠ ""
      rw [keysOf_mapUpdate]; exact h2
    · intro _
      exact fun hc => Option.noConfusion hc
    · intro p hp hpf
      have hp' : p ∈ mapUpdate m.id (fun x => { x with isModerator := true })
          room₁.members := hp
      rcases mem_mapUpdate h1 hp' with ⟨hp₁, -⟩ | ⟨v, hv', rfl⟩
      · have := h4 p hp₁ hpf
        rw [hhost] at this
        exact absurd (Option.some_injective _ this).symm (hnotu p hp₁)
      · rfl
  · refine ⟨h1, h2, ?_, ?_⟩
    · intro _
      exact fun hc => Option.noConfusion hc
    · intro p hp hpf
      have := h4 p hp hpf
      rw [hhost] at this
      exact absurd (Option.some_injective _ this).symm (hnotu p hp)

theorem strongInv_removeEverywhere (u : String) {room : Room}
    (h : strongInv room) : strongInv (removeEverywhere u room) := by
  obtain ⟨h1, h2, h3, h4⟩ := h
  refine ⟨nodup_keys_mapDelete u h1, ?_, ?_, ?_⟩
  · intro a ha
    exact h2 a (keys_mapDelete.mp ha).1
  · intro hne
    refine h3 (fun hnil => hne ?_)
    simp only [removeEverywhere, mapDelete, hnil, List.filter_nil]
  · intro p hp hpf
    exact h4 p (mem_mapDelete.mp hp).1 hpf

theorem regInv_disconnect (s : Session) {reg : Option Room} (h : regInv reg) :
    regInv (disconnect s reg).1 := by
  cases hok : sessionOk s with
  | false => simpa only [disconnect, hok, Bool.not_false, if_true] using h
  | true =>
    cases reg with
    | none => simp [disconnect, hok, regInv]
    | some room =>
      have hr₁ : strongInv (removeEverywhere s.userId room) :=
        strongInv_removeEverywhere s.userId h
      simp only [disconnect, hok, Bool.not_true, if_false]
      set room₁ := removeEverywhere s.userId room with hrdef
      obtain ⟨h1, h2, h3, h4⟩ := hr₁
      have hnotu : ∀ p ∈ room₁.members, p.1 ≠ s.userId := by
        intro p hp
        exact (mem_mapDelete.mp hp).2
      have hfo : regInv (some (failover s.roomId s.userId room₁).1) := by
        simp only [regInv]
        unfold failover
        split
        · next hh =>
          split
          · next hv =>
            refine ⟨h1, h2, ?_, ?_⟩
            · intro hne
              exact absurd (mapValues_eq_nil.mp hv) hne
            · intro p hp _
              rw [mapValues_eq_nil.mp hv] at hp
              simp at hp
          · next m rest hv =>
            exact strongInv_promoteFirst m ⟨h1, h2, h3, h4⟩ (beq_iff_eq.mp hh) hnotu
        · exact ⟨h1, h2, h3, h4⟩
      cases hempty : (failover s.roomId s.userId room₁).1.members.isEmpty with
      | true => simp [hempty, regInv]
      | false => simpa [hempty, regInv] using hfo

theorem regInv_step (reg : Option Room) (e : Event) (h : regInv reg) :
    regInv (step reg e) := by
  cases e with
  | join u nm pw now => exact regInv_joinRoom "R" u nm pw now h
  | disc u => exact regInv_disconnect (mkSession u) h
  | mkHost c t now => exact regInv_makeHost (mkSession c) "R" t now h
  | raise c now => exact regInv_handRaise (mkSession c) "R" now h
  | lower c now => exact regInv_handLower (mkSession c) "R" now h
  | lowerAll c now => exact regInv_handLowerAll (mkSession c) "R" now h

theorem regInv_foldl (es : List Event) (reg : Option Room) (h : regInv reg) :
    regInv (es.foldl step reg) := by
  induction es generalizing reg with
  | nil => exact h
  | cons e rest ih => exact ih _ (regInv_step reg e h)

theorem mapUpdate_ne_nil {k : String} {f : Member → Member}
    {l : List (String × Member)} (h : l ≠ []) : mapUpdate k f l ≠ [] := by
  cases l with
  | nil => exact absurd rfl h
  | cons q rest =>
    obtain ⟨k', v⟩ := q
    simp only [mapUpdate]
    split <;> simp

theorem joinAccept_fst_members (rid u nm : String) (room : Room) :
    ∃ mem r', (joinAccept rid u nm room).1 = some r'
      ∧ r'.members = mapSet u mem room.members := by
  unfold joinAccept
  split
  · exact ⟨_, _, rfl, rfl⟩
  · exact ⟨_, _, rfl, rfl⟩

/-! ### Claim C1 -/

/-- C1, counterexample: after `join(h)` and `make-host(g)` with `g` never
a member, the room's members are non-empty and `hostId` is `some "g"`,
which is not a key of `members` — refuting the claim that a non-empty
room's `hostId` always equals a key in `members`. -/
theorem c1_counterexample :
    [Event.join "h" "H" Option.none 0, Event.mkHost "h" "g" 1].foldl step Option.none
        = some roomC1
      ∧ roomC1.members ≠ []
      ∧ roomC1.hostId = some "g"
      ∧ "g" ∉ keysOf roomC1.members := by
  refine ⟨by decide, by decide, rfl, by decide⟩

/-- C1, amended: for every sequence of join, disconnect, make-host (and
hand) events applied to room `"R"` starting from the empty registry, at
most one member entry has `isModerator = true`, and whenever `members` is
non-empty, `hostId` is `Some` — but it need not be a key of `members`,
since `make-host` accepts non-member targets. -/
theorem c1_single_host_amended (es : List Event) (r : Room)
    (h : es.foldl step Option.none = some r) :
    (∀ p ∈ r.members, ∀ q ∈ r.members,
        p.2.isModerator = true → q.2.isModerator = true → p = q)
      ∧ (r.members ≠ [] → r.hostId ≠ none) := by
  have hinv : regInv (es.foldl step Option.none) := regInv_foldl es Option.none trivial
  rw [h] at hinv
  exact ⟨atMostOne_of_strongInv hinv, hinv.2.2.1⟩

/-- Witness for C1: the amended invariant evaluated on the concrete
two-event run reaching `roomC1`. -/
theorem c1_witness :
    (∀ p ∈ roomC1.members, ∀ q ∈ roomC1.members,
        p.2.isModerator = true → q.2.isModerator = true → p = q)
      ∧ (roomC1.members ≠ [] → roomC1.hostId ≠ none) :=
  c1_single_host_amended
    [Event.join "h" "H" Option.none 0, Event.mkHost "h" "g" 1] roomC1 (by decide)

/-! ### Claim C2 -/

/-- C2: host failover is deterministic and picks the earliest remaining
joiner.  First conjunct: when the host of `room` disconnects and member
`m` heads the remaining `Map.values()` order (with `m` stored under its
own id), the room survives with `hostId = m.id`, `m`'s entry flagged
`isModerator = true`, `m.id` granted draw permission, and the full
room-state snapshot broadcast to the whole room followed by the member
list.  Second conjunct: a successful first-time join appends the new
member at the tail of `members`, so `Map.values()` order is join order
and the head of the remaining members is the earliest remaining joiner. -/
theorem c2_failover_earliest :
    (∀ (s : Session) (room : Room) (m : Member) (rest : List Member),
      sessionOk s = true →
      room.hostId = some s.userId →
      mapValues (mapDelete s.userId room.members) = m :: rest →
      mapGet m.id (mapDelete s.userId room.members) = some m →
      (disconnect s (some room)).1
          = some (promoteFirst m (removeEverywhere s.userId room))
        ∧ (promoteFirst m (removeEverywhere s.userId room)).hostId = some m.id
        ∧ mapGet m.id (promoteFirst m (removeEverywhere s.userId room)).members
            = some { m with isModerator := true }
        ∧ (promoteFirst m (removeEverywhere s.userId room)).allowedUsers.contains m.id
            = true
        ∧ (disconnect s (some room)).2 =
            [⟨.toRoomAll s.roomId, "room-state",
              .roomState (promoteFirst m (removeEverywhere s.userId room)).locked
                (some m.id)
                (mapValues (promoteFirst m (removeEverywhere s.userId room)).members)
                Option.none⟩,
             ⟨.toRoomAll s.roomId, "room-members",
              .membersList
                (mapValues (promoteFirst m (removeEverywhere s.userId room)).members)⟩])
    ∧ (∀ (rid u nm : String) (pw : Option String) (reg : Option Room) (now : Nat),
      truthyS rid = true → truthyS u = true →
      joinBlocked (getOrCreateRoom reg now) u pw = false →
      mapGet u (getOrCreateRoom reg now).members = none →
      ∃ mem r', (joinRoom rid u nm pw reg now).1 = some r'
        ∧ r'.members = (getOrCreateRoom reg now).members ++ [(u, mem)]) := by
  constructor
  · intro s room m rest hok hhost hvals hget
    have hbeq : ((removeEverywhere s.userId room).hostId == some s.userId) = true := by
      show (room.hostId == some s.userId) = true
      rw [hhost]
      exact beq_self_eq_true _
    have hvals' : mapValues (removeEverywhere s.userId room).members = m :: rest := hvals
    have hget' : mapGet m.id (removeEverywhere s.userId room).members = some m := hget
    have hfail : failover s.roomId s.userId (removeEverywhere s.userId room)
        = (promoteFirst m (removeEverywhere s.userId room),
           [⟨.toRoomAll s.roomId, "room-state",
             .roomState (promoteFirst m (removeEverywhere s.userId room)).locked
               (promoteFirst m (removeEverywhere s.userId room)).hostId
               (mapValues (promoteFirst m (removeEverywhere s.userId room)).members)
               Option.none⟩]) := by
      unfold failover
      rw [hbeq, hvals']
      rfl
    have hprom : promoteFirst m (removeEverywhere s.userId room)
        = { removeEverywhere s.userId room with
            hostId := some m.id,
            members := mapUpdate m.id (fun x => { x with isModerator := true })
              (removeEverywhere s.userId room).members,
            allowedUsers := setAdd m.id (removeEverywhere s.userId room).allowedUsers } := by
      unfold promoteFirst
      rw [hget']
    have hmemne : (removeEverywhere s.userId room).members ≠ [] := by
      intro hnil
      rw [hnil] at hvals'
      simp [mapValues] at hvals'
    have hne : (promoteFirst m (removeEverywhere s.userId room)).members.isEmpty
        = false := by
      rw [hprom]
      show (mapUpdate m.id (fun x => { x with isModerator := true })
        (removeEverywhere s.userId room).members).isEmpty = false
      cases hc : (mapUpdate m.id (fun x => { x with isModerator := true })
          (removeEverywhere s.userId room).members).isEmpty
      · rfl
      · exact absurd (List.isEmpty_iff.mp hc) (mapUpdate_ne_nil hmemne)
    have hcond : (failover s.roomId s.userId
        (removeEverywhere s.userId room)).1.members.isEmpty = false := by
      rw [hfail]
      exact hne
    have hdisc : disconnect s (some room)
        = (some (promoteFirst m (removeEverywhere s.userId room)),
           (failover s.roomId s.userId (removeEverywhere s.userId room)).2
             ++ [⟨.toRoomAll s.roomId, "room-members",
                 .membersList (mapValues
                   (promoteFirst m (removeEverywhere s.userId room)).members)⟩]) := by
      have h1 : disconnect s (some room)
          = if (failover s.roomId s.userId
                (removeEverywhere s.userId room)).1.members.isEmpty
            then ((Option.none : Option Room),
              (failover s.roomId s.userId (removeEverywhere s.userId room)).2)
            else (some (failover s.roomId s.userId (removeEverywhere s.userId room)).1,
              (failover s.roomId s.userId (removeEverywhere s.userId room)).2
                ++ [⟨.toRoomAll s.roomId, "room-members",
                    .membersList (mapValues (failover s.roomId s.userId
                      (removeEverywhere s.userId room)).1.members)⟩]) := by
        unfold disconnect
        rw [hok]
        rfl
      rw [h1, hcond, hfail]
      rfl
    refine ⟨?_, ?_, ?_, ?_, ?_⟩
    · rw [hdisc]
    · rw [hprom]
    · rw [hprom]
      show mapGet m.id (mapUpdate m.id (fun x => { x with isModerator := true })
        (removeEverywhere s.userId room).members) = some { m with isModerator := true }
      rw [mapGet_mapUpdate_self, hget']
      rfl
    · rw [hprom]
      exact contains_setAdd_self _ _
    · rw [hdisc, hfail, hprom]
      rfl
  · intro rid u nm pw reg now hr hu hb hget
    have hj : joinRoom rid u nm pw reg now
        = joinAccept rid u nm (getOrCreateRoom reg now) := by
      unfold joinRoom
      rw [hr, hu, hb]
      rfl
    obtain ⟨mem, r', hr', hmem⟩ := joinAccept_fst_members rid u nm (getOrCreateRoom reg now)
    refine ⟨mem, r', by rw [hj]; exact hr', ?_⟩
    rw [hmem]
    exact mapSet_of_get_none hget

/-- Witness for C2: `h` joins, then `a`, then `b`; `h` disconnects; the
new host is `a` (the earliest remaining joiner), not `b`. -/
theorem c2_witness :
    ([Event.join "h" "H" Option.none 1, Event.join "a" "A" Option.none 2,
        Event.join "b" "B" Option.none 3].foldl step Option.none = some roomHAB)
      ∧ ((disconnect (mkSession "h") (some roomHAB)).1
          = some (promoteFirst memA (removeEverywhere "h" roomHAB))
        ∧ (promoteFirst memA (removeEverywhere "h" roomHAB)).hostId = some memA.id
        ∧ mapGet memA.id (promoteFirst memA (removeEverywhere "h" roomHAB)).members
            = some { memA with isModerator := true }
        ∧ (promoteFirst memA (removeEverywhere "h" roomHAB)).allowedUsers.contains memA.id
            = true
        ∧ (disconnect (mkSession "h") (some roomHAB)).2 =
            [⟨.toRoomAll "R", "room-state",
              .roomState (promoteFirst memA (removeEverywhere "h" roomHAB)).locked
                (some memA.id)
                (mapValues (promoteFirst memA (removeEverywhere "h" roomHAB)).members)
                Option.none⟩,
             ⟨.toRoomAll "R", "room-members",
              .membersList
                (mapValues (promoteFirst memA (removeEverywhere "h" roomHAB)).members)⟩]) :=
  ⟨by decide,
   c2_failover_earliest.1 (mkSession "h") roomHAB memA [memB]
     (by decide) (by decide) (by decide) (by decide)⟩

/-! ### Claim C3 -/

/-- C3, counterexample: a `room:lock` from non-host `"x"` fails its
precondition, yet the server emits nothing at all (no error signal to the
sender) and still mutates the room: `lastActivity` is restamped by the
`getOrCreateRoom` lookup, so the room state is not left unchanged. -/
theorem c3_counterexample :
    (roomLock ⟨"x", "R", "X", Option.none⟩ "R" "pw" (some roomC3) 5).2 = []
      ∧ (roomLock ⟨"x", "R", "X", Option.none⟩ "R" "pw" (some roomC3) 5).1
          ≠ some roomC3 := by
  refine ⟨by decide, by decide⟩

/-- C3, amended: a failed precondition never reaches any other
participant and never partially mutates the room, but (a) a host-gated
event such as `room:lock` fails silently — no error signal — and the
room lookup still restamps `lastActivity` (creating the room if absent),
while (b) a throttled chat send emits the rate-limit error to the sender
only and leaves the session (and all rooms) untouched. -/
theorem c3_failed_precondition_amended :
    (∀ (s : Session) (rid pw : String) (reg : Option Room) (now : Nat),
      sessionOk s = true →
      ((getOrCreateRoom reg now).hostId == some s.userId && truthyS pw) = false →
      roomLock s rid pw reg now = (some (getOrCreateRoom reg now), []))
    ∧ (∀ (s : Session) (rid : String) (msg : ChatMsg) (now : Nat) (rand : String),
      sessionOk s = true →
      chatAllowed s now = false →
      chatSend s rid msg now rand
        = ([⟨.toSender, "error", .errorMsg "Message rate limit exceeded"⟩], s)) := by
  constructor
  · intro s rid pw reg now hok hc
    unfold roomLock
    rw [hok, hc]
    rfl
  · intro s rid msg now rand hok hc
    unfold chatSend
    rw [hok, hc]
    rfl

/-- Witness for C3: the amended statement evaluated at the non-host lock
attempt on `roomC3` and a throttled chat send. -/
theorem c3_witness :
    roomLock ⟨"x", "R", "X", Option.none⟩ "R" "pw" (some roomC3) 5
        = (some (getOrCreateRoom (some roomC3) 5), [])
      ∧ chatSend ⟨"u", "R", "U", some 1000⟩ "R" msgC 1500 "r1"
          = ([⟨.toSender, "error", .errorMsg "Message rate limit exceeded"⟩],
             (⟨"u", "R", "U", some 1000⟩ : Session)) :=
  ⟨c3_failed_precondition_amended.1 ⟨"x", "R", "X", Option.none⟩ "R" "pw"
     (some roomC3) 5 (by decide) (by decide),
   c3_failed_precondition_amended.2 ⟨"u", "R", "U", some 1000⟩ "R" msgC 1500 "r1"
     (by decide) (by decide)⟩

/-! ### Claim C4 -/

/-- The admitting branch of join when the room already has a truthy host:
the new member is upserted and the first emission is the room snapshot to
the sender. -/
theorem joinAccept_truthy (rid u nm : String) (room : Room)
    (ht : truthyOpt room.hostId = true) :
    ∃ room₂ mem, (joinAccept rid u nm room).1 = some room₂
      ∧ room₂.members = mapSet u mem room.members
      ∧ mapGet u room₂.members = some mem
      ∧ (joinAccept rid u nm room).2.head?
          = some ⟨.toSender, "room-state",
              .roomState room₂.locked room₂.hostId (mapValues room₂.members)
                (some (room₂.allowedUsers.contains u))⟩ := by
  unfold joinAccept
  rw [ht]
  exact ⟨_, _, rfl, rfl, mapGet_mapSet_self _ _ _, rfl⟩

/-- C4, counterexample: with `p = ""` the claim fails.  The host performs
`lock(password="")`, which the code silently ignores (`password` is
falsy), so the room stays unlocked; a subsequent join by `"x"` with the
different password `"y"` then succeeds — the member is added and the
snapshot emitted, with no password error — refuting "a join with any
password different from p fails with a password error". -/
theorem c4_counterexample :
    (roomLock ⟨"h", "R", "H", Option.none⟩ "R" "" (some roomC4) 1).1
        = some { roomC4 with lastActivity := 1 }
      ∧ roomC4.locked = false
      ∧ (joinRoom "R" "x" "X" (some "y") (some { roomC4 with lastActivity := 1 }) 2).1
          = some roomC4joined
      ∧ mapGet "x" roomC4joined.members = some memX
      ∧ (joinRoom "R" "x" "X" (some "y") (some { roomC4 with lastActivity := 1 }) 2).2
          = [⟨.toSender, "room-state",
              .roomState false (some "h") [memHhost, memX] (some false)⟩,
             ⟨.toSender, "whiteboard:state", .whiteboardState [] Option.none⟩,
             ⟨.toRoomExceptSender "R", "room-members", .membersList [memHhost, memX]⟩] := by
  refine ⟨by decide, rfl, by decide, by decide, by decide⟩

/-- C4, amended: for every NON-EMPTY password `p`, after the host locks
with `p`, a non-host join with password `p` succeeds (member upserted,
room snapshot sent to the joiner first), and a join with any password
other than `p` is turned away with `error:password-required`, leaving the
members mapping unchanged (only `lastActivity` is restamped). -/
theorem c4_lock_roundtrip_amended
    (room : Room) (h u nm rid p : String) (pw' : Option String) (t₁ t₂ t₃ : Nat)
    (hrid : rid ≠ "") (hh : h ≠ "") (hu : u ≠ "") (hne : u ≠ h) (hp : p ≠ "")
    (hhost : room.hostId = some h) :
    (roomLock ⟨h, rid, h, Option.none⟩ rid p (some room) t₁).1
        = some { room with lastActivity := t₁, locked := true, password := some p }
      ∧ (∃ room₂ mem,
          (joinRoom rid u nm (some p)
              (some { room with lastActivity := t₁, locked := true, password := some p })
              t₂).1 = some room₂
          ∧ mapGet u room₂.members = some mem
          ∧ (joinRoom rid u nm (some p)
              (some { room with lastActivity := t₁, locked := true, password := some p })
              t₂).2.head?
              = some ⟨.toSender, "room-state",
                  .roomState room₂.locked room₂.hostId (mapValues room₂.members)
                    (some (room₂.allowedUsers.contains u))⟩)
      ∧ (pw' ≠ some p →
          (joinRoom rid u nm pw'
              (some { room with lastActivity := t₁, locked := true, password := some p })
              t₃).2 = [⟨.toSender, "error:password-required", .nothing⟩]
          ∧ (joinRoom rid u nm pw'
              (some { room with lastActivity := t₁, locked := true, password := some p })
              t₃).1
              = some { room with lastActivity := t₃, locked := true, password := some p }) := by
  have hguard : truthyS rid = true := by simp [truthyS, bne_iff_ne, hrid]
  have hguardu : truthyS u = true := by simp [truthyS, bne_iff_ne, hu]
  have hsess : sessionOk ⟨h, rid, h, Option.none⟩ = true := by
    simp [sessionOk, truthyS, bne_iff_ne, hh, hrid]
  have hcond : ((getOrCreateRoom (some room) t₁).hostId
      == some (⟨h, rid, h, Option.none⟩ : Session).userId && truthyS p) = true := by
    show ((room.hostId == some h) && truthyS p) = true
    rw [hhost]
    simp [truthyS, bne_iff_ne, hp]
  have hlock : roomLock ⟨h, rid, h, Option.none⟩ rid p (some room) t₁
      = (some { room with lastActivity := t₁, locked := true, password := some p },
         [⟨.toRoomAll rid, "room:locked", .nothing⟩]) := by
    unfold roomLock
    rw [hsess, hcond]
    rfl
  refine ⟨by rw [hlock], ?_, ?_⟩
  · have hb : joinBlocked (getOrCreateRoom
        (some { room with lastActivity := t₁, locked := true, password := some p }) t₂)
        u (some p) = false := by
      show (true && truthyOpt room.hostId && (room.hostId != some u)
        && ((some p : Option String) != some p)) = false
      simp
    have hjoin : joinRoom rid u nm (some p)
        (some { room with lastActivity := t₁, locked := true, password := some p }) t₂
        = joinAccept rid u nm (getOrCreateRoom
            (some { room with lastActivity := t₁, locked := true, password := some p })
            t₂) := by
      unfold joinRoom
      rw [hguard, hguardu, hb]
      rfl
    have ht : truthyOpt (getOrCreateRoom
        (some { room with lastActivity := t₁, locked := true, password := some p })
        t₂).hostId = true := by
      show truthyOpt room.hostId = true
      rw [hhost]
      simp [truthyOpt, bne_iff_ne, hh]
    obtain ⟨room₂, mem, h1, -, h3, h4⟩ := joinAccept_truthy rid u nm _ ht
    exact ⟨room₂, mem, by rw [hjoin]; exact h1, h3, by rw [hjoin]; exact h4⟩
  · intro hpw'
    have hb' : joinBlocked (getOrCreateRoom
        (some { room with lastActivity := t₁, locked := true, password := some p }) t₃)
        u pw' = true := by
      show (true && truthyOpt room.hostId && (room.hostId != some u)
        && ((some p : Option String) != pw')) = true
      rw [hhost]
      have e1 : truthyOpt (some h) = true := by simp [truthyOpt, bne_iff_ne, hh]
      have e2 : ((some h : Option String) != some u) = true := by
        simp [bne_iff_ne]
        exact Ne.symm hne
      have e3 : ((some p : Option String) != pw') = true := by
        simp [bne_iff_ne]
        exact fun hc => hpw' hc.symm
      rw [e1, e2, e3]
      rfl
    have hjoin' : joinRoom rid u nm pw'
        (some { room with lastActivity := t₁, locked := true, password := some p }) t₃
        = (some { room with lastActivity := t₃, locked := true, password := some p },
           [⟨.toSender, "error:password-required", .nothing⟩]) := by
      unfold joinRoom
      rw [hguard, hguardu, hb']
      rfl
    exact ⟨by rw [hjoin'], by rw [hjoin']⟩

/-- Witness for C4: the amended round trip evaluated on `roomC4` with
password `"pw"` and wrong password `"zz"`. -/
theorem c4_witness :
    (roomLock ⟨"h", "R", "h", Option.none⟩ "R" "pw" (some roomC4) 1).1
        = some { roomC4 with lastActivity := 1, locked := true, password := some "pw" }
      ∧ (∃ room₂ mem,
          (joinRoom "R" "x" "X" (some "pw")
              (some { roomC4 with lastActivity := 1, locked := true, password := some "pw" })
              2).1 = some room₂
          ∧ mapGet "x" room₂.members = some mem
          ∧ (joinRoom "R" "x" "X" (some "pw")
              (some { roomC4 with lastActivity := 1, locked := true, password := some "pw" })
              2).2.head?
              = some ⟨.toSender, "room-state",
                  .roomState room₂.locked room₂.hostId (mapValues room₂.members)
                    (some (room₂.allowedUsers.contains "x"))⟩)
      ∧ ((some "zz" : Option String) ≠ some "pw" →
          (joinRoom "R" "x" "X" (some "zz")
              (some { roomC4 with lastActivity := 1, locked := true, password := some "pw" })
              3).2
              = [⟨.toSender, "error:password-required", .nothing⟩]
          ∧ (joinRoom "R" "x" "X" (some "zz")
              (some { roomC4 with lastActivity := 1, locked := true, password := some "pw" })
              3).1
              = some { roomC4 with lastActivity := 3, locked := true, password := some "pw" }) :=
  c4_lock_roundtrip_amended roomC4 "h" "x" "X" "R" "pw" (some "zz") 1 2 3
    (by decide) (by decide) (by decide) (by decide) (by decide) (by decide)

/-! ### Claims C5 and C10: the chat throttle -/

theorem chatAllowed_some {s : Session} {t : Nat} (h : s.lastChatTime = some t)
    (now : Nat) : chatAllowed s now = (t == 0 || decide (now - t > 1000)) := by
  unfold chatAllowed
  rw [h]

/-- C5: chat throttling.  General part: with a previous accepted send at a
(positive) time `t₀`, a send strictly within 1000 ms is answered with the
rate-limit error to the sender only — no broadcast, session unchanged —
while a send strictly more than 1000 ms later is broadcast to the whole
room with a fresh server id and refreshes `lastChatTime`.  Concrete part:
of two sends 900 ms apart the second is rejected; a send 1100 ms after
the accepted one is accepted. -/
theorem c5_chat_throttle :
    (∀ (s : Session) (rid : String) (msg : ChatMsg) (now : Nat) (rand : String)
        (t₀ : Nat),
      sessionOk s = true → s.lastChatTime = some t₀ → 0 < t₀ →
      (now - t₀ < 1000 →
        chatSend s rid msg now rand
          = ([⟨.toSender, "error", .errorMsg "Message rate limit exceeded"⟩], s))
      ∧ (1000 < now - t₀ →
        chatSend s rid msg now rand
          = ([⟨.toRoomAll rid, "chat:receive",
              .chatOut { msg with id := mkEventId s.userId now rand, isMe := false }⟩],
             { s with lastChatTime := some now })))
    ∧ (chatSend ⟨"u", "R", "U", Option.none⟩ "R" msgC 10000 "r1"
        = ([⟨.toRoomAll "R", "chat:receive",
            .chatOut { msgC with id := mkEventId "u" 10000 "r1", isMe := false }⟩],
           (⟨"u", "R", "U", some 10000⟩ : Session))
      ∧ chatSend ⟨"u", "R", "U", some 10000⟩ "R" msgC 10900 "r2"
          = ([⟨.toSender, "error", .errorMsg "Message rate limit exceeded"⟩],
             (⟨"u", "R", "U", some 10000⟩ : Session))
      ∧ chatSend ⟨"u", "R", "U", some 10000⟩ "R" msgC 11100 "r3"
          = ([⟨.toRoomAll "R", "chat:receive",
              .chatOut { msgC with id := mkEventId "u" 11100 "r3", isMe := false }⟩],
             (⟨"u", "R", "U", some 11100⟩ : Session))) := by
  constructor
  · intro s rid msg now rand t₀ hok hlast ht0
    constructor
    · intro hlt
      have h1 : (t₀ == 0) = false := by
        simp
        omega
      have h2 : decide (now - t₀ > 1000) = false := by
        simp
        omega
      have hc : chatAllowed s now = false := by
        rw [chatAllowed_some hlast now, h1, h2]
        rfl
      unfold chatSend
      rw [hok, hc]
      rfl
    · intro hgt
      have h2 : decide (now - t₀ > 1000) = true := by
        simp
        omega
      have hc : chatAllowed s now = true := by
        rw [chatAllowed_some hlast now, h2]
        simp
      unfold chatSend
      rw [hok, hc]
      rfl
  · refine ⟨by decide, by decide, by decide⟩

/-- Witness for C5: the general throttle statement evaluated at a send
900 ms after an accepted send at time 10000, and at a send 1100 ms
after it. -/
theorem c5_witness :
    (chatSend ⟨"u", "R", "U", some 10000⟩ "R" msgC 10900 "r2"
        = ([⟨.toSender, "error", .errorMsg "Message rate limit exceeded"⟩],
           (⟨"u", "R", "U", some 10000⟩ : Session)))
      ∧ (chatSend ⟨"u", "R", "U", some 10000⟩ "R" msgC 11100 "r3"
        = ([⟨.toRoomAll "R", "chat:receive",
            .chatOut { msgC with id := mkEventId "u" 11100 "r3", isMe := false }⟩],
           (⟨"u", "R", "U", some 11100⟩ : Session))) :=
  ⟨(c5_chat_throttle.1 ⟨"u", "R", "U", some 10000⟩ "R" msgC 10900 "r2" 10000
      (by decide) rfl (by decide)).1 (by decide),
   (c5_chat_throttle.1 ⟨"u", "R", "U", some 10000⟩ "R" msgC 11100 "r3" 10000
      (by decide) rfl (by decide)).2 (by decide)⟩

/-- C10: the throttle window is measured from the last accepted send.
General part: a rejected send leaves the connection's `lastChatTime`
untouched.  Scenario part: for any positive base time `b`, sends at
`b`, `b + 900`, `b + 1100` from one fresh connection are accepted,
rejected, accepted — the third is measured against the first. -/
theorem c10_throttle_from_accepted :
    (∀ (s : Session) (rid : String) (msg : ChatMsg) (now : Nat) (rand : String),
      sessionOk s = true → chatAllowed s now = false →
      (chatSend s rid msg now rand).2.lastChatTime = s.lastChatTime)
    ∧ (∀ b : Nat, 0 < b →
      chatSend ⟨"u", "R", "U", Option.none⟩ "R" msgC b "r1"
          = ([⟨.toRoomAll "R", "chat:receive",
              .chatOut { msgC with id := mkEventId "u" b "r1", isMe := false }⟩],
             (⟨"u", "R", "U", some b⟩ : Session))
      ∧ chatSend ⟨"u", "R", "U", some b⟩ "R" msgC (b + 900) "r2"
          = ([⟨.toSender, "error", .errorMsg "Message rate limit exceeded"⟩],
             (⟨"u", "R", "U", some b⟩ : Session))
      ∧ chatSend ⟨"u", "R", "U", some b⟩ "R" msgC (b + 1100) "r3"
          = ([⟨.toRoomAll "R", "chat:receive",
              .chatOut { msgC with id := mkEventId "u" (b + 1100) "r3", isMe := false }⟩],
             (⟨"u", "R", "U", some (b + 1100)⟩ : Session))) := by
  constructor
  · intro s rid msg now rand hok hc
    unfold chatSend
    rw [hok, hc]
    rfl
  · intro b hb
    refine ⟨rfl, ?_, ?_⟩
    · have h1 : (b == 0) = false := by
        simp
        omega
      have h2 : decide (b + 900 - b > 1000) = false := by
        simp
      have hc : chatAllowed ⟨"u", "R", "U", some b⟩ (b + 900) = false := by
        rw [chatAllowed_some rfl, h1, h2]
        rfl
      unfold chatSend
      rw [hc]
      rfl
    · have h2 : decide (b + 1100 - b > 1000) = true := by
        simp
      have hc : chatAllowed ⟨"u", "R", "U", some b⟩ (b + 1100) = true := by
        rw [chatAllowed_some rfl, h2]
        simp
      unfold chatSend
      rw [hc]
      rfl

/-- Witness for C10: the no-update statement at a rejected send, and the
accept/reject/accept run at base time 10000. -/
theorem c10_witness :
    ((chatSend ⟨"u", "R", "U", some 10000⟩ "R" msgC 10900 "r2").2.lastChatTime
        = some 10000)
      ∧ (chatSend ⟨"u", "R", "U", Option.none⟩ "R" msgC 10000 "r1"
          = ([⟨.toRoomAll "R", "chat:receive",
              .chatOut { msgC with id := mkEventId "u" 10000 "r1", isMe := false }⟩],
             (⟨"u", "R", "U", some 10000⟩ : Session))
        ∧ chatSend ⟨"u", "R", "U", some 10000⟩ "R" msgC (10000 + 900) "r2"
            = ([⟨.toSender, "error", .errorMsg "Message rate limit exceeded"⟩],
               (⟨"u", "R", "U", some 10000⟩ : Session))
        ∧ chatSend ⟨"u", "R", "U", some 10000⟩ "R" msgC (10000 + 1100) "r3"
            = ([⟨.toRoomAll "R", "chat:receive",
                .chatOut { msgC with id := mkEventId "u" (10000 + 1100) "r3", isMe := false }⟩],
               (⟨"u", "R", "U", some (10000 + 1100)⟩ : Session))) :=
  ⟨c10_throttle_from_accepted.1 ⟨"u", "R", "U", some 10000⟩ "R" msgC 10900 "r2"
     (by decide) (by decide),
   c10_throttle_from_accepted.2 10000 (by decide)⟩

/-! ### Claim C6 -/

/-- C6: draw-permission gating.  A whiteboard draw event whose sender is
not in the room's draw-permission set leaves the registry entry equal to
the looked-up room (so the drawing log is exactly the stored one — nothing
appended) and emits nothing at all — zero broadcasts. -/
theorem c6_draw_gating (s : Session) (rid : String) (d : Drawing)
    (reg : Option Room) (now : Nat) (rand : String)
    (hok : sessionOk s = true)
    (hdeny : (getOrCreateRoom reg now).allowedUsers.contains s.userId = false) :
    (whiteboardDrawing s rid d reg now rand).1 = some (getOrCreateRoom reg now)
      ∧ (getOrCreateRoom reg now).whiteboardDrawings
          = (reg.getD (freshRoom now)).whiteboardDrawings
      ∧ (whiteboardDrawing s rid d reg now rand).2 = [] := by
  have hchar : whiteboardDrawing s rid d reg now rand
      = (some (getOrCreateRoom reg now), []) := by
    unfold whiteboardDrawing
    rw [hok, hdeny]
    rfl
  exact ⟨by rw [hchar], rfl, by rw [hchar]⟩

/-- Witness for C6: member `"x"` of `roomC3` has no draw permission; its
draw event is dropped without trace. -/
theorem c6_witness :
    (whiteboardDrawing ⟨"x", "R", "X", Option.none⟩ "R" ⟨"cid", "stroke"⟩
        (some roomC3) 9 "rr").1 = some (getOrCreateRoom (some roomC3) 9)
      ∧ (getOrCreateRoom (some roomC3) 9).whiteboardDrawings
          = ((some roomC3).getD (freshRoom 9)).whiteboardDrawings
      ∧ (whiteboardDrawing ⟨"x", "R", "X", Option.none⟩ "R" ⟨"cid", "stroke"⟩
          (some roomC3) 9 "rr").2 = [] :=
  c6_draw_gating ⟨"x", "R", "X", Option.none⟩ "R" ⟨"cid", "stroke"⟩
    (some roomC3) 9 "rr" (by decide) (by decide)

/-! ### Claim C7 -/

/-- C7, counterexample: two distinct draw events from the same user with
the same `Date.now()` value and the same `Math.random()` suffix are both
emitted, yet carry the same id — server-side ids are only
probabilistically unique, not guaranteed distinct. -/
theorem c7_counterexample :
    (whiteboardDrawing ⟨"u", "R", "U", Option.none⟩ "R" ⟨"id1", "stroke-one"⟩
        (some roomC7) 50 "zz").2
        = [⟨.toRoomExceptSender "R", "whiteboard:drawing",
            .drawingOut ⟨"u-50-zz", "stroke-one"⟩⟩]
      ∧ (whiteboardDrawing ⟨"u", "R", "U", Option.none⟩ "R" ⟨"id2", "stroke-two"⟩
          (whiteboardDrawing ⟨"u", "R", "U", Option.none⟩ "R" ⟨"id1", "stroke-one"⟩
            (some roomC7) 50 "zz").1 50 "zz").2
          = [⟨.toRoomExceptSender "R", "whiteboard:drawing",
              .drawingOut ⟨"u-50-zz", "stroke-two"⟩⟩]
      ∧ (⟨"u-50-zz", "stroke-one"⟩ : Drawing) ≠ ⟨"u-50-zz", "stroke-two"⟩
      ∧ (⟨"u-50-zz", "stroke-one"⟩ : Drawing).id = (⟨"u-50-zz", "stroke-two"⟩ : Drawing).id := by
  refine ⟨by decide, by decide, by decide, rfl⟩

/-- C7, amended: every accepted DrawingOp, ChatMessage and Reaction is
emitted with an id assigned server-side at ingestion — the composition of
sender id, current time and random suffix — replacing whatever id the
client supplied; ids of two emitted events therefore coincide exactly
when those three components compose to the same string, and global
uniqueness is not guaranteed. -/
theorem c7_server_assigned_ids :
    (∀ (s : Session) (rid : String) (d : Drawing) (reg : Option Room) (now : Nat)
        (rand : String),
      sessionOk s = true →
      (getOrCreateRoom reg now).allowedUsers.contains s.userId = true →
      whiteboardDrawing s rid d reg now rand
        = (some { getOrCreateRoom reg now with
            whiteboardDrawings := (getOrCreateRoom reg now).whiteboardDrawings
              ++ [{ d with id := mkEventId s.userId now rand }] },
           [⟨.toRoomExceptSender rid, "whiteboard:drawing",
             .drawingOut { d with id := mkEventId s.userId now rand }⟩]))
    ∧ (∀ (s : Session) (rid : String) (msg : ChatMsg) (now : Nat) (rand : String),
      sessionOk s = true → chatAllowed s now = true →
      chatSend s rid msg now rand
        = ([⟨.toRoomAll rid, "chat:receive",
            .chatOut { msg with id := mkEventId s.userId now rand, isMe := false }⟩],
           { s with lastChatTime := some now }))
    ∧ (∀ (s : Session) (rid : String) (rc : Reaction) (now : Nat) (rand : String),
      sessionOk s = true →
      reactionSend s rid rc now rand
        = [⟨.toRoomExceptSender rid, "reaction:send",
            .reactionOut { rc with id := mkEventId s.userId now rand }⟩]) := by
  refine ⟨?_, ?_, ?_⟩
  · intro s rid d reg now rand hok hallow
    unfold whiteboardDrawing
    rw [hok, hallow]
    rfl
  · intro s rid msg now rand hok hallow
    unfold chatSend
    rw [hok, hallow]
    rfl
  · intro s rid rc now rand hok
    unfold reactionSend
    rw [hok]
    rfl

/-- Witness for C7: the three id assignments evaluated on concrete
payloads whose client-supplied ids are all replaced. -/
theorem c7_witness :
    whiteboardDrawing ⟨"u", "R", "U", Option.none⟩ "R" ⟨"cid", "s"⟩
        (some roomC7) 50 "zz"
        = (some { getOrCreateRoom (some roomC7) 50 with
            whiteboardDrawings := (getOrCreateRoom (some roomC7) 50).whiteboardDrawings
              ++ [{ (⟨"cid", "s"⟩ : Drawing) with id := mkEventId "u" 50 "zz" }] },
           [⟨.toRoomExceptSender "R", "whiteboard:drawing",
             .drawingOut { (⟨"cid", "s"⟩ : Drawing) with id := mkEventId "u" 50 "zz" }⟩])
      ∧ chatSend ⟨"u", "R", "U", Option.none⟩ "R" msgC 50 "zz"
          = ([⟨.toRoomAll "R", "chat:receive",
              .chatOut { msgC with id := mkEventId "u" 50 "zz", isMe := false }⟩],
             { (⟨"u", "R", "U", Option.none⟩ : Session) with lastChatTime := some 50 })
      ∧ reactionSend ⟨"u", "R", "U", Option.none⟩ "R" ⟨"cid", "wave"⟩ 50 "zz"
          = [⟨.toRoomExceptSender "R", "reaction:send",
              .reactionOut { (⟨"cid", "wave"⟩ : Reaction) with id := mkEventId "u" 50 "zz" }⟩] :=
  ⟨c7_server_assigned_ids.1 ⟨"u", "R", "U", Option.none⟩ "R" ⟨"cid", "s"⟩
     (some roomC7) 50 "zz" (by decide) (by decide),
   c7_server_assigned_ids.2.1 ⟨"u", "R", "U", Option.none⟩ "R" msgC 50 "zz"
     (by decide) (by decide),
   c7_server_assigned_ids.2.2 ⟨"u", "R", "U", Option.none⟩ "R" ⟨"cid", "wave"⟩ 50 "zz"
     (by decide)⟩

/-! ### Claim C8 -/

theorem keys_subset_mapSet {a k : String} {v : Member} {l : List (String × Member)}
    (h : a ∈ keysOf l) : a ∈ keysOf (mapSet k v l) := by
  induction l with
  | nil => simp [keysOf] at h
  | cons q rest ih =>
    obtain ⟨k', v'⟩ := q
    simp only [keysOf, List.map_cons, List.mem_cons] at h
    simp only [mapSet]
    split
    · next heq =>
      simp only [keysOf, List.map_cons, List.mem_cons]
      rcases h with rfl | h2
      · exact Or.inl (beq_iff_eq.mp heq)
      · exact Or.inr h2
    · simp only [keysOf, List.map_cons, List.mem_cons]
      rcases h with rfl | h2
      · exact Or.inl rfl
      · exact Or.inr (ih h2)

theorem handsSubset_iff {r : Room} :
    handsSubset r = true ↔ ∀ u ∈ r.handRaised, u ∈ keysOf r.members := by
  simp [handsSubset, List.all_eq_true]

theorem regHands_getOrCreate {reg : Option Room} (h : regHands reg = true)
    (now : Nat) : handsSubset (getOrCreateRoom reg now) = true := by
  cases reg with
  | none => rfl
  | some r => exact h

theorem handsSubset_joinAccept (rid u nm : String) {room : Room}
    (h : handsSubset room = true) : regHands (joinAccept rid u nm room).1 = true := by
  have h' := handsSubset_iff.mp h
  cases htr : truthyOpt room.hostId with
  | true =>
    simp only [joinAccept, htr, if_true, regHands]
    exact handsSubset_iff.mpr fun v hv => keys_subset_mapSet (h' v hv)
  | false =>
    simp only [joinAccept, htr, if_false, regHands]
    exact handsSubset_iff.mpr fun v hv => keys_subset_mapSet (h' v hv)

theorem regHands_joinRoom (rid u nm : String) (pw : Option String)
    {reg : Option Room} (now : Nat) (h : regHands reg = true) :
    regHands (joinRoom rid u nm pw reg now).1 = true := by
  cases hg : (!(truthyS rid && truthyS u)) with
  | true => simpa only [joinRoom, hg, if_true] using h
  | false =>
    cases hb : joinBlocked (getOrCreateRoom reg now) u pw with
    | true =>
      simp only [joinRoom, hg, if_false, hb, if_true, regHands]
      exact regHands_getOrCreate h now
    | false =>
      simp only [joinRoom, hg, if_false, hb]
      exact handsSubset_joinAccept rid u nm (regHands_getOrCreate h now)

theorem regHands_makeHost (s : Session) (rid target : String) {reg : Option Room}
    (now : Nat) (h : regHands reg = true) :
    regHands (makeHost s rid target reg now).1 = true := by
  cases hok : sessionOk s with
  | false => simpa only [makeHost, hok, Bool.not_false, if_true] using h
  | true =>
    cases hh : ((getOrCreateRoom reg now).hostId == some s.userId) with
    | false =>
      simp only [makeHost, hok, Bool.not_true, if_false, hh, regHands]
      exact regHands_getOrCreate h now
    | true =>
      simp only [makeHost, hok, Bool.not_true, if_false, hh, if_true, regHands]
      refine handsSubset_iff.mpr fun v hv => ?_
      show v ∈ keysOf (mapUpdate target (fun m => { m with isModerator := true })
        (mapUpdate s.userId (fun m => { m with isModerator := false })
          (getOrCreateRoom reg now).members))
      rw [keysOf_mapUpdate, keysOf_mapUpdate]
      exact (handsSubset_iff.mp (regHands_getOrCreate h now)) v hv

theorem regHands_handRaise (s : Session) (rid : String) {reg : Option Room}
    (now : Nat) (h : regHands reg = true)
    (hmem : (keysOf (getOrCreateRoom reg now).members).contains s.userId = true) :
    regHands (handRaise s rid reg now).1 = true := by
  cases hok : sessionOk s with
  | false => simpa only [handRaise, hok, Bool.not_false, if_true] using h
  | true =>
    simp only [handRaise, hok, Bool.not_true, if_false, regHands]
    refine handsSubset_iff.mpr fun v hv => ?_
    have hv' : v ∈ setAdd s.userId (getOrCreateRoom reg now).handRaised := hv
    show v ∈ keysOf (mapUpdate s.userId (fun m => { m with handRaised := true })
      (getOrCreateRoom reg now).members)
    rw [keysOf_mapUpdate]
    rcases mem_setAdd hv' with rfl | h2
    · simpa using hmem
    · exact (handsSubset_iff.mp (regHands_getOrCreate h now)) v h2

theorem regHands_handLower (s : Session) (rid : String) {reg : Option Room}
    (now : Nat) (h : regHands reg = true) :
    regHands (handLower s rid reg now).1 = true := by
  cases hok : sessionOk s with
  | false => simpa only [handLower, hok, Bool.not_false, if_true] using h
  | true =>
    simp only [handLower, hok, Bool.not_true, if_false, regHands]
    refine handsSubset_iff.mpr fun v hv => ?_
    have hv' : v ∈ setDelete s.userId (getOrCreateRoom reg now).handRaised := hv
    show v ∈ keysOf (mapUpdate s.userId (fun m => { m with handRaised := false })
      (getOrCreateRoom reg now).members)
    rw [keysOf_mapUpdate]
    exact (handsSubset_iff.mp (regHands_getOrCreate h now)) v (mem_setDelete.mp hv').1

theorem regHands_handLowerAll (s : Session) (rid : String) {reg : Option Room}
    (now : Nat) (h : regHands reg = true) :
    regHands (handLowerAll s rid reg now).1 = true := by
  cases hok : sessionOk s with
  | false => simpa only [handLowerAll, hok, Bool.not_false, if_true] using h
  | true =>
    cases hh : ((getOrCreateRoom reg now).hostId == some s.userId) with
    | false =>
      simp only [handLowerAll, hok, Bool.not_true, if_false, hh, regHands]
      exact regHands_getOrCreate h now
    | true =>
      simp only [handLowerAll, hok, Bool.not_true, if_false, hh, if_true, regHands]
      refine handsSubset_iff.mpr fun v hv => ?_
      exact absurd hv (List.not_mem_nil v)

theorem regHands_disconnect (s : Session) {reg : Option Room}
    (h : regHands reg = true) : regHands (disconnect s reg).1 = true := by
  cases hok : sessionOk s with
  | false => simpa only [disconnect, hok, Bool.not_false, if_true] using h
  | true =>
    cases reg with
    | none => simp [disconnect, hok, regHands]
    | some room =>
      simp only [disconnect, hok, Bool.not_true, if_false]
      have h' : ∀ v ∈ (removeEverywhere s.userId room).handRaised,
          v ∈ keysOf (removeEverywhere s.userId room).members := by
        intro v hv
        have hv' : v ∈ setDelete s.userId room.handRaised := hv
        have hsub := handsSubset_iff.mp h
        exact keys_mapDelete.mpr
          ⟨hsub v (mem_setDelete.mp hv').1, (mem_setDelete.mp hv').2⟩
      have hfo : regHands
          (some (failover s.roomId s.userId (removeEverywhere s.userId room)).1)
          = true := by
        simp only [regHands]
        unfold failover
        split
        · split
          · exact handsSubset_iff.mpr fun v hv => h' v hv
          · unfold promoteFirst
            split
            · refine handsSubset_iff.mpr fun v hv => ?_
              show v ∈ keysOf (mapUpdate _ (fun x => { x with isModerator := true })
                (removeEverywhere s.userId room).members)
              rw [keysOf_mapUpdate]
              exact h' v hv
            · exact handsSubset_iff.mpr fun v hv => h' v hv
        · exact handsSubset_iff.mpr h'
      cases hempty : (failover s.roomId s.userId
          (removeEverywhere s.userId room)).1.members.isEmpty with
      | true => simp [hempty, regHands]
      | false => simpa [hempty, regHands] using hfo

/-- C8, counterexample: a `hand:raise` addressed to a room whose members
do not include the caller (reachable, e.g., from a second live connection
of a user whose first connection already disconnected, or by addressing a
payload `roomId` the caller never joined) inserts a non-member into
`raisedHands`: the subset invariant does not survive hand-raise. -/
theorem c8_counterexample :
    handsSubset roomC8 = true
      ∧ (handRaise ⟨"a", "R", "A", Option.none⟩ "R" (some roomC8) 4).1
          = some { roomC8 with lastActivity := 4, handRaised := ["a"] }
      ∧ handsSubset { roomC8 with lastActivity := 4, handRaised := ["a"] } = false := by
  refine ⟨by decide, by decide, by decide⟩

/-- C8, amended: `raisedHands ⊆ keys(members)` is preserved by every
event — join, disconnect, make-host, hand lower, lower-all
unconditionally, and hand raise provided the caller is a current member
of the room the event addresses. -/
theorem c8_raised_hands_amended (reg : Option Room) (e : Event)
    (hinv : regHands reg = true) (hok : raiseOk reg e = true) :
    regHands (step reg e) = true := by
  cases e with
  | join u nm pw now => exact regHands_joinRoom "R" u nm pw now hinv
  | disc u => exact regHands_disconnect (mkSession u) hinv
  | mkHost c t now => exact regHands_makeHost (mkSession c) "R" t now hinv
  | raise c now => exact regHands_handRaise (mkSession c) "R" now hinv hok
  | lower c now => exact regHands_handLower (mkSession c) "R" now hinv
  | lowerAll c now => exact regHands_handLowerAll (mkSession c) "R" now hinv

/-- Witness for C8: member `"a"` of `roomHAB` raises a hand; the subset
invariant survives. -/
theorem c8_witness :
    regHands (step (some roomHAB) (Event.raise "a" 7)) = true :=
  c8_raised_hands_amended (some roomHAB) (Event.raise "a" 7) (by decide) (by decide)

/-! ### Claim C9 -/

/-- C9: the host's mute and remove commands leave the room unchanged
except for the `lastActivity` restamp — but the directed control signal
is emitted with `socket.to(targetUserId)`, i.e. into the Socket.IO room
named by the target's USER id.  Sockets only ever join the meeting room id
and are implicitly in the room named by their own SOCKET id, so that
Socket.IO room is empty: the target socket does not receive the signal
(and neither does anyone else).  The code's own comment says "Notify the
user to be muted", so the claim matches the intent and the code misses
it. -/
theorem c9_mute_not_delivered :
    (muteUser ⟨"h", "r", "H", Option.none⟩ "r" "a" (some roomC9) 7).1
        = some { roomC9 with lastActivity := 7 }
      ∧ (muteUser ⟨"h", "r", "H", Option.none⟩ "r" "a" (some roomC9) 7).2
          = [⟨.toRoomExceptSender "a", "moderator:force-mute", .nothing⟩]
      ∧ receivesEm sockH sockA
          ⟨.toRoomExceptSender "a", "moderator:force-mute", .nothing⟩ = false
      ∧ receivesEm sockH sockH
          ⟨.toRoomExceptSender "a", "moderator:force-mute", .nothing⟩ = false
      ∧ (removeUser ⟨"h", "r", "H", Option.none⟩ "r" "a" (some roomC9) 8).1
          = some { roomC9 with lastActivity := 8 }
      ∧ (removeUser ⟨"h", "r", "H", Option.none⟩ "r" "a" (some roomC9) 8).2
          = [⟨.toRoomExceptSender "a", "moderator:force-leave", .nothing⟩]
      ∧ receivesEm sockH sockA
          ⟨.toRoomExceptSender "a", "moderator:force-leave", .nothing⟩ = false := by
  refine ⟨by decide, by decide, by decide, by decide, by decide, by decide, by decide⟩

end CitySchool
